import Mathlib

/-!
Shallow embedding of the core logic of the email-marketing A/B-testing
application (`src/app.py`): the MD5-based variation assignment, the funnel
metrics aggregation, the tracking-event handlers, and the open-time batch
scheduler (classify / schedule / dispatch), together with theorems settling
the specification claims about them.
-/

set_option maxRecDepth 100000

namespace EmailMarketing

/-! ## MD5 (embedding of Python's `hashlib.md5` as used by `assign_variation`)

Machine words are `Nat` reduced mod `2^32` explicitly.  The message is a list
of byte values (`Nat < 256`); `String`s are converted via UTF-8, mirroring
Python's `str.encode()`. -/

/-- `2^32`, the word modulus. -/
def M32 : Nat := 4294967296

/-- 32-bit addition. -/
def add32 (a b : Nat) : Nat := (a + b) % M32

/-- 32-bit bitwise complement (operands are `< 2^32`). -/
def not32 (a : Nat) : Nat := a ^^^ 4294967295

/-- 32-bit left rotation by `s` (for `x < 2^32`, `0 < s < 32`). -/
def rotl32 (x s : Nat) : Nat := ((x <<< s) % M32) ||| (x >>> (32 - s))

/-- The per-round shift amounts of MD5. -/
def mdS : List Nat := [
  7, 12, 17, 22, 7, 12, 17, 22,
  7, 12, 17, 22, 7, 12, 17, 22,
  5, 9, 14, 20, 5, 9, 14, 20,
  5, 9, 14, 20, 5, 9, 14, 20,
  4, 11, 16, 23, 4, 11, 16, 23,
  4, 11, 16, 23, 4, 11, 16, 23,
  6, 10, 15, 21, 6, 10, 15, 21,
  6, 10, 15, 21, 6, 10, 15, 21]

/-- The sine-derived round constants of MD5. -/
def mdK : List Nat := [
  3614090360, 3905402710, 606105819, 3250441966, 4118548399, 1200080426, 2821735955, 4249261313,
  1770035416, 2336552879, 4294925233, 2304563134, 1804603682, 4254626195, 2792965006, 1236535329,
  4129170786, 3225465664, 643717713, 3921069994, 3593408605, 38016083, 3634488961, 3889429448,
  568446438, 3275163606, 4107603335, 1163531501, 2850285829, 4243563512, 1735328473, 2368359562,
  4294588738, 2272392833, 1839030562, 4259657740, 2763975236, 1272893353, 4139469664, 3200236656,
  681279174, 3936430074, 3572445317, 76029189, 3654602809, 3873151461, 530742520, 3299628645,
  4096336452, 1126891415, 2878612391, 4237533241, 1700485571, 2399980690, 4293915773, 2240044497,
  1873313359, 4264355552, 2734768916, 1309151649, 4149444226, 3174756917, 718787259, 3951481745]

/-- The nonlinear round function of MD5, selected by the round index. -/
def md5F (i b c d : Nat) : Nat :=
  if i < 16 then (b &&& c) ||| (not32 b &&& d)
  else if i < 32 then (d &&& b) ||| (not32 d &&& c)
  else if i < 48 then b ^^^ c ^^^ d
  else c ^^^ (b ||| not32 d)

/-- The message-word index schedule of MD5. -/
def md5G (i : Nat) : Nat :=
  if i < 16 then i
  else if i < 32 then (5 * i + 1) % 16
  else if i < 48 then (3 * i + 5) % 16
  else (7 * i) % 16

/-- Little-endian 32-bit word `j` of a 64-byte chunk. -/
def chunkWord (chunk : List Nat) (j : Nat) : Nat :=
  chunk.getD (4 * j) 0 + chunk.getD (4 * j + 1) 0 * 256 +
  chunk.getD (4 * j + 2) 0 * 65536 + chunk.getD (4 * j + 3) 0 * 16777216

/-- One MD5 round: update the `(a, b, c, d)` state with round index `i`. -/
def md5Round (chunk : List Nat) (st : Nat × Nat × Nat × Nat) (i : Nat) :
    Nat × Nat × Nat × Nat :=
  let (a, b, c, d) := st
  let tmp := add32 (add32 (add32 a (md5F i b c d)) (mdK.getD i 0))
    (chunkWord chunk (md5G i))
  (d, add32 b (rotl32 tmp (mdS.getD i 0)), b, c)

/-- Process one 64-byte chunk, adding the 64-round result into the state. -/
def md5Chunk (st : Nat × Nat × Nat × Nat) (chunk : List Nat) :
    Nat × Nat × Nat × Nat :=
  let (a0, b0, c0, d0) := st
  let (a, b, c, d) := (List.range 64).foldl (md5Round chunk) (a0, b0, c0, d0)
  (add32 a0 a, add32 b0 b, add32 c0 c, add32 d0 d)

/-- MD5 padding: append `0x80`, zeros to 56 mod 64, then the bit length as a
little-endian 64-bit value. -/
def md5Pad (msg : List Nat) : List Nat :=
  let len := msg.length
  let zeros := (120 - (len + 1) % 64) % 64
  msg ++ [128] ++ List.replicate zeros 0 ++
    ((List.range 8).map fun i => ((8 * len) % 18446744073709551616) >>> (8 * i) % 256)

/-- The initial MD5 state. -/
def md5Init : Nat × Nat × Nat × Nat := (1732584193, 4023233417, 2562383102, 271733878)

/-- Little-endian byte decomposition of a 32-bit word. -/
def wordBytes (w : Nat) : List Nat := [w % 256, w >>> 8 % 256, w >>> 16 % 256, w >>> 24 % 256]

/-- The 16-byte MD5 digest of a byte message. -/
def md5Digest (msg : List Nat) : List Nat :=
  let padded := md5Pad msg
  let nChunks := padded.length / 64
  let chunks := (List.range nChunks).map fun i => (padded.drop (64 * i)).take 64
  let (a, b, c, d) := chunks.foldl md5Chunk md5Init
  wordBytes a ++ wordBytes b ++ wordBytes c ++ wordBytes d

/-- Lowercase hexadecimal character for a value `< 16`. -/
def hexChar (n : Nat) : Char :=
  if n < 10 then Char.ofNat (48 + n) else Char.ofNat (87 + n)

/-- Lowercase hex string of a byte list, as Python's `hexdigest()`. -/
def hexOfBytes (bytes : List Nat) : String :=
  String.mk (bytes.foldr (fun b acc => hexChar (b / 16) :: hexChar (b % 16) :: acc) [])

/-- UTF-8 encoding of one code point, as a list of byte values. -/
def utf8EncodeCP (c : Nat) : List Nat :=
  if c < 128 then [c]
  else if c < 2048 then [192 ||| (c >>> 6), 128 ||| (c &&& 63)]
  else if c < 65536 then
    [224 ||| (c >>> 12), 128 ||| ((c >>> 6) &&& 63), 128 ||| (c &&& 63)]
  else
    [240 ||| (c >>> 18), 128 ||| ((c >>> 12) &&& 63),
     128 ||| ((c >>> 6) &&& 63), 128 ||| (c &&& 63)]

/-- UTF-8 bytes of a string, mirroring Python's `str.encode()`. -/
def strBytes (s : String) : List Nat :=
  s.data.foldr (fun c acc => utf8EncodeCP c.toNat ++ acc) []

/-- `hashlib.md5(s.encode()).hexdigest()`. -/
def md5Hex (s : String) : String := hexOfBytes (md5Digest (strBytes s))

/-- Numeric value of one lowercase-hex character. -/
def hexVal (c : Char) : Nat :=
  if c.toNat ≤ 57 then c.toNat - 48 else c.toNat - 87

/-- `int(s, 16)` on a lowercase-hex string. -/
def hexToNat (s : String) : Nat := s.data.foldl (fun acc c => 16 * acc + hexVal c) 0

/-! ## Variation assignment (`assign_variation`, src/app.py lines 268-274) -/

/-- A row of the `email_variations` table, as consumed by `assign_variation`
(only the `variation_name` field is read). -/
structure Variation where
  variation_name : String
deriving DecidableEq

/-- `assign_variation(recipient_email, variations)`: hash the email with MD5,
take the first 8 hex digits as an integer, reduce mod the variation count and
index the ordered variation list.  Python raises on an empty list (`% 0`);
that is modelled by `none`. -/
def assign_variation (recipient_email : String) (variations : List Variation) :
    Option String :=
  match variations with
  | [] => none
  | v :: vs =>
    let email_hash := md5Hex recipient_email
    let hash_int := hexToNat (email_hash.take 8)
    let variation_index := hash_int % (v :: vs).length
    some (((v :: vs).getD variation_index v).variation_name)

/-- ASCII lowercasing of one character (what Python's `str.lower()` does on
ASCII input). -/
def lowerChar (c : Char) : Char :=
  if 65 ≤ c.toNat ∧ c.toNat ≤ 90 then Char.ofNat (c.toNat + 32) else c

/-- ASCII lowercasing of a string. -/
def lowerStr (s : String) : String := String.mk (s.data.map lowerChar)

/-! ## Data model: recipients -/

/-- A row of the `recipients` table (the fields the in-scope operations
touch).  Timestamps are `Option Nat` (SQL `TIMESTAMP`, nullable). -/
structure Recipient where
  campaign_id : Nat
  email_address : String
  variation_assigned : String
  tracking_id : String
  status : String
  sent_at : Option Nat
  opened_at : Option Nat
  clicked_at : Option Nat
  converted_at : Option Nat
deriving DecidableEq

/-! ## Metrics aggregation (`calculate_ab_metrics`, src/app.py lines 276-318)

The SQL aggregation is embedded as list filtering/counting over the
`recipients` table; the rate divisions are exact rationals. -/

/-- The per-variation metrics dictionary built by `calculate_ab_metrics`. -/
structure VariationMetrics where
  total_sent : Nat
  opened : Nat
  clicked : Nat
  converted : Nat
  open_rate : ℚ
  click_rate : ℚ
  conversion_rate : ℚ
  click_through_rate : ℚ
deriving DecidableEq

/-- The aggregation query: counts over recipients of the campaign with the
given variation and `status = 'sent'`, and the guarded rate computations. -/
def metricsFor (db : List Recipient) (campaign_id : Nat) (variation : String) :
    VariationMetrics :=
  let rows := db.filter fun r =>
    r.campaign_id = campaign_id ∧ r.variation_assigned = variation ∧ r.status = "sent"
  let total_sent := rows.length
  let opened := (rows.filter fun r => r.opened_at ≠ none).length
  let clicked := (rows.filter fun r => r.clicked_at ≠ none).length
  let converted := (rows.filter fun r => r.converted_at ≠ none).length
  { total_sent := total_sent, opened := opened, clicked := clicked, converted := converted,
    open_rate := if total_sent > 0 then (opened : ℚ) / total_sent * 100 else 0,
    click_rate := if total_sent > 0 then (clicked : ℚ) / total_sent * 100 else 0,
    conversion_rate := if total_sent > 0 then (converted : ℚ) / total_sent * 100 else 0,
    click_through_rate := if opened > 0 then (clicked : ℚ) / opened * 100 else 0 }

/-- `calculate_ab_metrics(campaign_id)`: one metrics entry per distinct
variation assigned within the campaign. -/
def calculate_ab_metrics (db : List Recipient) (campaign_id : Nat) :
    List (String × VariationMetrics) :=
  let variations :=
    ((db.filter fun r => r.campaign_id = campaign_id).map
      fun r => r.variation_assigned).dedup
  variations.map fun v => (v, metricsFor db campaign_id v)

/-! ## Tracking handlers (`tracking_pixel` lines 785-814, `track_click`
lines 816-843)

The conditional SQL `UPDATE ... WHERE tracking_id = %s AND <col> IS NULL` is
embedded as a row map; a persistence error (the `except` path, where nothing
is committed) is modelled by the `db_fails` flag.  Both handlers' responses
are embedded as a small response type. -/

/-- The HTTP response a tracking handler produces. -/
inductive TrackResponse where
  | pixel (mimetype : String) (base64Payload : String)
  | redirectTo (url : String)
deriving DecidableEq

/-- The base64 payload of the 1x1 transparent GIF returned by
`tracking_pixel` on both its success and error paths. -/
def pixelB64 : String := "R0lGODlhAQABAIAAAAAAAP///yH5BAEAAAAALAAAAAABAAEAAAIBRAA7"

/-- Effect of the open-tracking `UPDATE` on one row. -/
def openRow (tracking_id : String) (now : Nat) (r : Recipient) : Recipient :=
  if r.tracking_id = tracking_id ∧ r.opened_at = none then
    { r with opened_at := some now } else r

/-- `UPDATE recipients SET opened_at = now WHERE tracking_id = %s AND
opened_at IS NULL`. -/
def updateOpened (db : List Recipient) (tracking_id : String) (now : Nat) :
    List Recipient := db.map (openRow tracking_id now)

/-- The `/pixel/<tracking_id>` handler: run the conditional update (unless
persistence fails, in which case nothing is committed) and return the
placeholder pixel on both paths. -/
def tracking_pixel (db_fails : Bool) (db : List Recipient) (tracking_id : String)
    (now : Nat) : List Recipient × TrackResponse :=
  if db_fails then (db, .pixel "image/gif" pixelB64)
  else (updateOpened db tracking_id now, .pixel "image/gif" pixelB64)

/-- Effect of the click-tracking `UPDATE` on one row. -/
def clickRow (tracking_id : String) (now : Nat) (r : Recipient) : Recipient :=
  if r.tracking_id = tracking_id ∧ r.clicked_at = none then
    { r with clicked_at := some now } else r

/-- `UPDATE recipients SET clicked_at = now WHERE tracking_id = %s AND
clicked_at IS NULL`. -/
def updateClicked (db : List Recipient) (tracking_id : String) (now : Nat) :
    List Recipient := db.map (clickRow tracking_id now)

/-- The `/click/<tracking_id>?url=...` handler: `request.args.get('url',
BASE_URL)` then the conditional update, then `redirect(original_url)`;
on a persistence error nothing is committed and the handler redirects to
`BASE_URL`.  `base_url` is the deployment-configured `BASE_URL` constant. -/
def track_click (base_url : String) (db_fails : Bool) (url_param : Option String)
    (db : List Recipient) (tracking_id : String) (now : Nat) :
    List Recipient × TrackResponse :=
  let original_url := url_param.getD base_url
  if db_fails then (db, .redirectTo base_url)
  else (updateClicked db tracking_id now, .redirectTo original_url)

/-! ## Open-time batch scheduler (`send_optimized_schedule`, src/app.py
lines 1101-1184)

Parsed `HH:MM` times are minutes-of-day (`h * 60 + m`, always `< 1440`); the
order on minutes-of-day is exactly the order `datetime.time` comparisons use,
since `strptime('%H:%M')` always yields seconds = 0.  Wall-clock instants are
seconds since an epoch midnight. -/

/-- Whitespace as stripped by Python's `str.strip()` (ASCII range). -/
def isSpaceChar (c : Char) : Bool :=
  c.toNat = 32 ∨ c.toNat = 9 ∨ c.toNat = 10 ∨ c.toNat = 13 ∨ c.toNat = 11 ∨ c.toNat = 12

/-- Python's `str.strip()`: drop leading and trailing whitespace. -/
def pyStrip (s : String) : String :=
  String.mk (((s.data.dropWhile isSpaceChar).reverse.dropWhile isSpaceChar).reverse)

/-- Value of a non-empty digit list, most significant first. -/
def digitsToNat (l : List Char) : Nat := l.foldl (fun a c => 10 * a + (c.toNat - 48)) 0

/-- Split a character list at every separator character (the splitter
underlying `str.split`-style grouping): `"09:30"` becomes `["09", "30"]`,
with empty groups kept. -/
def splitChars (p : Char → Bool) : List Char → List (List Char)
  | [] => [[]]
  | c :: rest =>
    if p c then [] :: splitChars p rest
    else
      match splitChars p rest with
      | [] => [[c]]
      | g :: gs => (c :: g) :: gs

/-- `datetime.datetime.strptime(s, "%H:%M").time()` as minutes-of-day:
exactly two colon-separated groups of one or two digits, hour `≤ 23`,
minute `≤ 59`; anything else raises `ValueError` (`none`). -/
def parseHHMM (s : String) : Option Nat :=
  match splitChars (fun c => c = ':') s.data with
  | [hs, ms] =>
    if hs ≠ [] ∧ hs.length ≤ 2 ∧ hs.all Char.isDigit ∧
       ms ≠ [] ∧ ms.length ≤ 2 ∧ ms.all Char.isDigit then
      let h := digitsToNat hs
      let m := digitsToNat ms
      if h ≤ 23 ∧ m ≤ 59 then some (h * 60 + m) else none
    else none
  | _ => none

/-- The `BATCH_SEND_TIMES` table: bucket name with target `(hour, minute)`,
in the source's insertion order. -/
def BATCH_SEND_TIMES : List (String × Nat × Nat) :=
  [("Morning Batch 1", 8, 0), ("Morning Batch 2", 11, 0),
   ("Evening Batch 1", 14, 0), ("Evening Batch 2", 19, 0),
   ("Night Batch 1", 0, 30), ("Night Batch 2", 4, 45)]

/-- The `if/elif` classification chain over a parsed time `t` (minutes of
day): `06:00 = 360`, `10:00 = 600`, `12:00 = 720`, `17:00 = 1020`,
`21:00 = 1260`, `23:59 = 1439`, `01:00 = 60`. -/
def classifyTime (t : Nat) : String :=
  if 360 ≤ t ∧ t < 600 then "Morning Batch 1"
  else if 600 ≤ t ∧ t < 720 then "Morning Batch 2"
  else if 720 ≤ t ∧ t < 1020 then "Evening Batch 1"
  else if 1020 ≤ t ∧ t < 1260 then "Evening Batch 2"
  else if (1260 ≤ t ∧ t ≤ 1439) ∨ (0 ≤ t ∧ t < 60) then "Night Batch 1"
  else if 60 ≤ t ∧ t < 360 then "Night Batch 2"
  else "Unknown Batch"

/-- The mutable `batches_to_process` dictionary: insertion-ordered buckets. -/
abbrev Batches := List (String × List String)

/-- `batches_to_process = {batch: [] for batch in BATCH_SEND_TIMES}`: only
the six named buckets are keys. -/
def initialBatches : Batches := BATCH_SEND_TIMES.map fun b => (b.1, [])

/-- `batches_to_process[batch].append(email)`: append under an existing key;
a missing key raises `KeyError` (`none`), aborting the whole operation. -/
def appendBatch : Batches → String → String → Option Batches
  | [], _, _ => none
  | (k, v) :: rest, key, e =>
    if k = key then some ((k, v ++ [e]) :: rest)
    else (appendBatch rest key e).map fun r => (k, v) :: r

/-- One CSV row as read by the classification loop (cell values after
`str(...)`). -/
structure Row where
  email : String
  opentime : String

/-- The body of the classification loop for one row: strip both fields, skip
the row when either is empty or the open-time fails to parse, otherwise
append the email under the classified bucket. -/
def processRow (st : Batches) (row : Row) : Option Batches :=
  let email := pyStrip row.email
  let opentime := pyStrip row.opentime
  if email = "" ∨ opentime = "" then some st
  else
    match parseHHMM opentime with
    | none => some st
    | some t => appendBatch st (classifyTime t) email

/-- The whole classification loop over the CSV rows, starting from the
freshly initialised dictionary; `none` means an uncaught exception ended the
operation with an error response. -/
def classifyRows (rows : List Row) : Option Batches :=
  rows.foldlM processRow initialBatches

/-- `h, m = BATCH_SEND_TIMES[batch]` (every bucket key of
`batches_to_process` is a key of this table). -/
def lookupSendTime (name : String) : Nat × Nat :=
  ((BATCH_SEND_TIMES.find? fun b => b.1 = name).getD ("", 0, 0)).2

/-- `now.replace(hour=h, minute=m, second=0, microsecond=0)` followed by
`if send_time < now: send_time += timedelta(days=1)`, on wall-clock seconds
(`86400` seconds per day). -/
def nextOccurrence (now : Nat) (hm : Nat × Nat) : Nat :=
  let send_time := now / 86400 * 86400 + (hm.1 * 3600 + hm.2 * 60)
  if send_time < now then send_time + 86400 else send_time

/-- Strict lexicographic order on character lists by code point (Python's
string `<`). -/
def charsLt : List Char → List Char → Bool
  | [], [] => false
  | [], _ :: _ => true
  | _ :: _, [] => false
  | a :: l1, b :: l2 =>
    if a.toNat < b.toNat then true
    else if b.toNat < a.toNat then false
    else charsLt l1 l2

/-- Python string `<`. -/
def strLtB (a b : String) : Bool := charsLt a.data b.data

/-- Python `≤` on lists of strings (lexicographic). -/
def listStrLe : List String → List String → Bool
  | [], _ => true
  | _ :: _, [] => false
  | a :: l1, b :: l2 =>
    if a = b then listStrLe l1 l2 else strLtB a b

/-- Python tuple `≤` on `(send_time, batch, recipients)` entries, the order
`sorted_batches.sort()` sorts by. -/
def entryLe (x y : Nat × String × List String) : Bool :=
  if x.1 < y.1 then true
  else if y.1 < x.1 then false
  else if x.2.1 = y.2.1 then listStrLe x.2.2 y.2.2
  else strLtB x.2.1 y.2.1

/-- Insert an entry into a sorted entry list, before the first entry it is
`entryLe`-below. -/
def insertEntry (x : Nat × String × List String) :
    List (Nat × String × List String) → List (Nat × String × List String)
  | [] => [x]
  | y :: rest => if entryLe x y then x :: y :: rest else y :: insertEntry x rest

/-- Sort an entry list ascending by `entryLe` (insertion sort).  Because
`entryLe` is an antisymmetric total preorder on the whole tuple, this yields
the same list as Python's stable `list.sort()`. -/
def sortEntries : List (Nat × String × List String) → List (Nat × String × List String)
  | [] => []
  | x :: rest => insertEntry x (sortEntries rest)

/-- The scheduling phase: keep non-empty buckets, attach the next occurrence
of each bucket's target time, and sort ascending (`sorted_batches.sort()`,
lexicographic on `(send_time, batch, recipients)` like Python's). -/
def scheduleBatches (now : Nat) (batches : Batches) :
    List (Nat × String × List String) :=
  sortEntries (batches.filterMap fun b =>
    if b.2 = [] then none
    else some (nextOccurrence now (lookupSendTime b.1), b.1, b.2))

/-- The dispatch phase over the sorted batches: send to every recipient of
every batch in order (`send` is the mail gateway, returning success or
failure; the result is only logged) and append `(batch, len(recipients))` to
the `scheduled` report.  Returns the report and the per-recipient send
results in execution order. -/
def dispatchBatches (send : String → Bool)
    (sorted_batches : List (Nat × String × List String)) :
    List (String × Nat) × List Bool :=
  sorted_batches.foldl
    (fun acc b => (acc.1 ++ [(b.2.1, b.2.2.length)], acc.2 ++ b.2.2.map send))
    ([], [])

/-- A sample sent recipient of campaign 1 / variation "A" with the given
open/click timestamps (test fixture for the concrete metrics example). -/
def exRec (op cl : Option Nat) : Recipient :=
  { campaign_id := 1, email_address := "e@x.com", variation_assigned := "A",
    tracking_id := "t", status := "sent", sent_at := some 0,
    opened_at := op, clicked_at := cl, converted_at := none }

/-- Ten sent recipients: 4 opened, of which 2 clicked (test fixture). -/
def exampleDb : List Recipient :=
  [exRec (some 1) (some 2), exRec (some 1) (some 2),
   exRec (some 1) none, exRec (some 1) none] ++
  List.replicate 6 (exRec none none)

/-! ## Helper lemmas -/

theorem char_eq_of_toNat_eq {a b : Char} (h : a.toNat = b.toNat) : a = b := by
  rw [← Char.ofNat_toNat a, ← Char.ofNat_toNat b, h]

theorem charsLt_nil_cons (b : Char) (l : List Char) : charsLt [] (b :: l) = true := rfl

theorem charsLt_nil_right (l : List Char) : charsLt l [] = false := by
  cases l <;> rfl

theorem charsLt_cons_iff (a b : Char) (t1 t2 : List Char) :
    charsLt (a :: t1) (b :: t2) = true ↔
      a.toNat < b.toNat ∨ (a.toNat = b.toNat ∧ charsLt t1 t2 = true) := by
  simp only [charsLt]
  split_ifs with h1 h2
  · simp [h1]
  · simp; omega
  · have hab : a.toNat = b.toNat := by omega
    simp [hab, Nat.lt_irrefl]

theorem charsLt_irrefl (l : List Char) : charsLt l l = false := by
  induction l with
  | nil => rfl
  | cons a t ih => simp only [charsLt, Nat.lt_irrefl, if_false]; exact ih

theorem charsLt_trans (l1 : List Char) : ∀ l2 l3 : List Char,
    charsLt l1 l2 = true → charsLt l2 l3 = true → charsLt l1 l3 = true := by
  induction l1 with
  | nil =>
    intro l2 l3 h12 h23
    cases l2 with
    | nil => simp [charsLt_nil_right] at h12
    | cons b t2 =>
      cases l3 with
      | nil => simp [charsLt_nil_right] at h23
      | cons c t3 => exact charsLt_nil_cons c t3
  | cons a t1 ih =>
    intro l2 l3 h12 h23
    cases l2 with
    | nil => simp [charsLt_nil_right] at h12
    | cons b t2 =>
      cases l3 with
      | nil => simp [charsLt_nil_right] at h23
      | cons c t3 =>
        rw [charsLt_cons_iff] at h12 h23 ⊢
        rcases h12 with hab | ⟨hab, hrec12⟩
        · rcases h23 with hbc | ⟨hbc, _⟩
          · exact Or.inl (Nat.lt_trans hab hbc)
          · exact Or.inl (by omega)
        · rcases h23 with hbc | ⟨hbc, hrec23⟩
          · exact Or.inl (by omega)
          · exact Or.inr ⟨by omega, ih t2 t3 hrec12 hrec23⟩

theorem charsLt_eq_of_not (l1 : List Char) : ∀ l2 : List Char,
    charsLt l1 l2 = false → charsLt l2 l1 = false → l1 = l2 := by
  induction l1 with
  | nil =>
    intro l2 h12 _
    cases l2 with
    | nil => rfl
    | cons b t2 => simp [charsLt_nil_cons] at h12
  | cons a t1 ih =>
    intro l2 h12 h21
    cases l2 with
    | nil => simp [charsLt_nil_cons] at h21
    | cons b t2 =>
      have h12' : ¬(a.toNat < b.toNat ∨ (a.toNat = b.toNat ∧ charsLt t1 t2 = true)) := by
        rw [← charsLt_cons_iff]; simp [h12]
      have h21' : ¬(b.toNat < a.toNat ∨ (b.toNat = a.toNat ∧ charsLt t2 t1 = true)) := by
        rw [← charsLt_cons_iff]; simp [h21]
      push_neg at h12' h21'
      have hab : a.toNat = b.toNat := by omega
      have ht : t1 = t2 := by
        refine ih t2 ?_ ?_
        · exact Bool.not_eq_true _ ▸ (by simpa using h12'.2 hab)
        · exact Bool.not_eq_true _ ▸ (by simpa using h21'.2 hab.symm)
      rw [char_eq_of_toNat_eq hab, ht]

theorem strLtB_trans {a b c : String} (h1 : strLtB a b = true) (h2 : strLtB b c = true) :
    strLtB a c = true := charsLt_trans a.data b.data c.data h1 h2

theorem strLtB_irrefl (a : String) : strLtB a a = false := charsLt_irrefl a.data

theorem str_eq_of_not_lt {a b : String} (h1 : strLtB a b = false)
    (h2 : strLtB b a = false) : a = b := by
  cases a with
  | mk d1 =>
    cases b with
    | mk d2 => exact congrArg String.mk (charsLt_eq_of_not d1 d2 h1 h2)

theorem listStrLe_refl (l : List String) : listStrLe l l = true := by
  induction l with
  | nil => rfl
  | cons a t ih => simp only [listStrLe, if_pos rfl]; exact ih

theorem listStrLe_total (l1 : List String) : ∀ l2 : List String,
    (listStrLe l1 l2 || listStrLe l2 l1) = true := by
  induction l1 with
  | nil => intro l2; simp [listStrLe]
  | cons a t1 ih =>
    intro l2
    cases l2 with
    | nil => simp [listStrLe]
    | cons b t2 =>
      by_cases hab : a = b
      · subst hab
        simp only [listStrLe, if_pos rfl]
        exact ih t2
      · simp only [listStrLe, if_neg hab, if_neg (Ne.symm hab)]
        by_cases h : strLtB a b = true
        · simp [h]
        · by_cases h' : strLtB b a = true
          · simp [h']
          · exact absurd (str_eq_of_not_lt (Bool.not_eq_true _ ▸ h)
              (Bool.not_eq_true _ ▸ h')) hab

theorem listStrLe_trans (l1 : List String) : ∀ l2 l3 : List String,
    listStrLe l1 l2 = true → listStrLe l2 l3 = true → listStrLe l1 l3 = true := by
  induction l1 with
  | nil => intro l2 l3 _ _; rfl
  | cons a t1 ih =>
    intro l2 l3 h12 h23
    cases l2 with
    | nil => simp [listStrLe] at h12
    | cons b t2 =>
      cases l3 with
      | nil => simp [listStrLe] at h23
      | cons c t3 =>
        by_cases hab : a = b <;> by_cases hbc : b = c
        · subst hab; subst hbc
          simp only [listStrLe, if_pos rfl] at h12 h23 ⊢
          exact ih t2 t3 h12 h23
        · subst hab
          simp only [listStrLe, if_pos rfl, if_neg hbc] at h12 h23 ⊢
          simp [h23]
        · subst hbc
          simp only [listStrLe, if_pos rfl, if_neg hab] at h12 h23 ⊢
          simp [h12]
        · simp only [listStrLe, if_neg hab, if_neg hbc] at h12 h23
          have hac : strLtB a c = true := strLtB_trans h12 h23
          have hne : a ≠ c := by
            intro he; subst he
            rw [strLtB_irrefl] at hac; exact Bool.false_ne_true hac
          simp only [listStrLe, if_neg hne]
          exact hac

theorem strLtB_ne {a b : String} (h : strLtB a b = true) : a ≠ b := by
  intro he; subst he
  rw [strLtB_irrefl] at h
  exact Bool.false_ne_true h

theorem entryLe_iff (x y : Nat × String × List String) :
    entryLe x y = true ↔
      x.1 < y.1 ∨ (x.1 = y.1 ∧
        ((x.2.1 = y.2.1 ∧ listStrLe x.2.2 y.2.2 = true) ∨
         (x.2.1 ≠ y.2.1 ∧ strLtB x.2.1 y.2.1 = true))) := by
  simp only [entryLe]
  split_ifs with h1 h2 h3
  · simp [h1]
  · constructor
    · intro h; exact absurd h (by simp)
    · rintro (h | ⟨h, _⟩) <;> omega
  · have he : x.1 = y.1 := by omega
    constructor
    · intro h; exact Or.inr ⟨he, Or.inl ⟨h3, h⟩⟩
    · rintro (h | ⟨_, ⟨_, h⟩ | ⟨hne, _⟩⟩)
      · omega
      · exact h
      · exact absurd h3 hne
  · have he : x.1 = y.1 := by omega
    constructor
    · intro h; exact Or.inr ⟨he, Or.inr ⟨h3, h⟩⟩
    · rintro (h | ⟨_, ⟨hne, _⟩ | ⟨_, h⟩⟩)
      · omega
      · exact absurd hne h3
      · exact h

theorem entryLe_trans (x y z : Nat × String × List String)
    (h1 : entryLe x y = true) (h2 : entryLe y z = true) : entryLe x z = true := by
  rw [entryLe_iff] at h1 h2 ⊢
  rcases h1 with h1 | ⟨he1, h1⟩
  · rcases h2 with h2 | ⟨he2, _⟩
    · exact Or.inl (Nat.lt_trans h1 h2)
    · exact Or.inl (he2 ▸ h1)
  · rcases h2 with h2 | ⟨he2, h2⟩
    · exact Or.inl (he1 ▸ h2)
    · refine Or.inr ⟨he1.trans he2, ?_⟩
      rcases h1 with ⟨hn1, hl1⟩ | ⟨hn1, hs1⟩
      · rcases h2 with ⟨hn2, hl2⟩ | ⟨hn2, hs2⟩
        · exact Or.inl ⟨hn1.trans hn2, listStrLe_trans _ _ _ hl1 hl2⟩
        · exact Or.inr ⟨hn1 ▸ hn2, hn1 ▸ hs2⟩
      · rcases h2 with ⟨hn2, hl2⟩ | ⟨hn2, hs2⟩
        · exact Or.inr ⟨hn2 ▸ hn1, hn2 ▸ hs1⟩
        · exact Or.inr ⟨strLtB_ne (strLtB_trans hs1 hs2), strLtB_trans hs1 hs2⟩

theorem entryLe_total (x y : Nat × String × List String) :
    (entryLe x y || entryLe y x) = true := by
  rcases Nat.lt_trichotomy x.1 y.1 with h | h | h
  · have : entryLe x y = true := (entryLe_iff x y).mpr (Or.inl h)
    simp [this]
  · by_cases hn : x.2.1 = y.2.1
    · by_cases hl : listStrLe x.2.2 y.2.2 = true
      · have : entryLe x y = true :=
          (entryLe_iff x y).mpr (Or.inr ⟨h, Or.inl ⟨hn, hl⟩⟩)
        simp [this]
      · have hl2 : listStrLe y.2.2 x.2.2 = true := by
          have := listStrLe_total x.2.2 y.2.2
          rcases Bool.or_eq_true_iff.mp this with h' | h'
          · exact absurd h' hl
          · exact h'
        have : entryLe y x = true :=
          (entryLe_iff y x).mpr (Or.inr ⟨h.symm, Or.inl ⟨hn.symm, hl2⟩⟩)
        simp [this]
    · by_cases hs : strLtB x.2.1 y.2.1 = true
      · have : entryLe x y = true :=
          (entryLe_iff x y).mpr (Or.inr ⟨h, Or.inr ⟨hn, hs⟩⟩)
        simp [this]
      · by_cases hs2 : strLtB y.2.1 x.2.1 = true
        · have : entryLe y x = true :=
            (entryLe_iff y x).mpr (Or.inr ⟨h.symm, Or.inr ⟨Ne.symm hn, hs2⟩⟩)
          simp [this]
        · exact absurd (str_eq_of_not_lt (Bool.not_eq_true _ ▸ hs)
            (Bool.not_eq_true _ ▸ hs2)) hn
  · have : entryLe y x = true := (entryLe_iff y x).mpr (Or.inl h)
    simp [this]

theorem parseHHMM_lt {s : String} {t : Nat} (h : parseHHMM s = some t) : t < 1440 := by
  simp only [parseHHMM] at h
  split at h
  · split_ifs at h with hc1 hc2
    · simp only [Option.some_inj] at h
      omega
  · simp at h

theorem classifyTime_mem (t : Nat) (ht : t < 1440) :
    classifyTime t ∈ BATCH_SEND_TIMES.map Prod.fst := by
  unfold classifyTime
  split_ifs with h1 h2 h3 h4 h5 h6
  · decide
  · decide
  · decide
  · decide
  · decide
  · decide
  · exfalso; omega

theorem appendBatch_isSome (st : Batches) (key e : String)
    (h : key ∈ st.map Prod.fst) : (appendBatch st key e).isSome := by
  induction st with
  | nil => simp at h
  | cons b rest ih =>
    obtain ⟨k, v⟩ := b
    simp only [List.map_cons, List.mem_cons] at h
    simp only [appendBatch]
    by_cases hk : k = key
    · simp [hk]
    · rcases h with h | h
      · exact absurd h.symm hk
      · rw [if_neg hk]
        have := ih h
        cases hrec : appendBatch rest key e with
        | none => rw [hrec] at this; simp at this
        | some r => simp [hrec]

theorem appendBatch_keys (st : Batches) (key e : String) :
    ∀ st', appendBatch st key e = some st' →
      st'.map Prod.fst = st.map Prod.fst := by
  induction st with
  | nil => intro st' h; simp [appendBatch] at h
  | cons b rest ih =>
    obtain ⟨k, v⟩ := b
    intro st' h
    simp only [appendBatch] at h
    by_cases hk : k = key
    · rw [if_pos hk] at h
      simp only [Option.some_inj] at h
      rw [← h]
      simp
    · rw [if_neg hk] at h
      cases hrec : appendBatch rest key e with
      | none => rw [hrec] at h; simp at h
      | some r =>
        rw [hrec] at h
        simp at h
        rw [← h]
        simp [ih r hrec]

theorem processRow_inv (row : Row) (st : Batches)
    (hkeys : st.map Prod.fst = BATCH_SEND_TIMES.map Prod.fst) :
    ∃ st', processRow st row = some st' ∧
      st'.map Prod.fst = BATCH_SEND_TIMES.map Prod.fst := by
  simp only [processRow]
  split_ifs with h1
  · exact ⟨st, rfl, hkeys⟩
  · cases hp : parseHHMM (pyStrip row.opentime) with
    | none => exact ⟨st, rfl, hkeys⟩
    | some t =>
      have ht := parseHHMM_lt hp
      have hmem : classifyTime t ∈ st.map Prod.fst := by
        rw [hkeys]; exact classifyTime_mem t ht
      have hsome := appendBatch_isSome st (classifyTime t) (pyStrip row.email) hmem
      cases happ : appendBatch st (classifyTime t) (pyStrip row.email) with
      | none => rw [happ] at hsome; simp at hsome
      | some st' =>
        exact ⟨st', happ,
          (appendBatch_keys st (classifyTime t) (pyStrip row.email) st' happ).trans hkeys⟩

theorem foldRows_inv (rows : List Row) : ∀ st : Batches,
    st.map Prod.fst = BATCH_SEND_TIMES.map Prod.fst →
    ∃ st', rows.foldlM processRow st = some st' ∧
      st'.map Prod.fst = BATCH_SEND_TIMES.map Prod.fst := by
  induction rows with
  | nil => intro st h; exact ⟨st, rfl, h⟩
  | cons r rest ih =>
    intro st h
    obtain ⟨st1, h1, hk1⟩ := processRow_inv r st h
    obtain ⟨st2, h2, hk2⟩ := ih st1 hk1
    refine ⟨st2, ?_, hk2⟩
    rw [List.foldlM_cons, h1]
    exact h2

theorem initialBatches_keys :
    initialBatches.map Prod.fst = BATCH_SEND_TIMES.map Prod.fst := by decide

theorem classifyRows_isSome (rows : List Row) : (classifyRows rows).isSome := by
  obtain ⟨st', h, _⟩ := foldRows_inv rows initialBatches initialBatches_keys
  unfold classifyRows
  rw [h]
  rfl

theorem dispatch_foldl (send : String → Bool) :
    ∀ (l : List (Nat × String × List String)) (acc : List (String × Nat) × List Bool),
      l.foldl (fun acc b => (acc.1 ++ [(b.2.1, b.2.2.length)], acc.2 ++ b.2.2.map send)) acc =
        (acc.1 ++ l.map fun b => (b.2.1, b.2.2.length),
         acc.2 ++ (l.map fun b => b.2.2.map send).flatten) := by
  intro l
  induction l with
  | nil => intro acc; simp
  | cons b rest ih =>
    intro acc
    simp only [List.foldl_cons, ih, List.map_cons, List.flatten_cons]
    simp [List.append_assoc]

theorem nextOccurrence_spec (now h m : Nat) (hh : h ≤ 23) (hm : m ≤ 59) :
    now ≤ nextOccurrence now (h, m) ∧
    nextOccurrence now (h, m) < now + 86400 ∧
    nextOccurrence now (h, m) % 86400 = h * 3600 + m * 60 := by
  simp only [nextOccurrence]
  split_ifs with hlt <;> refine ⟨by omega, by omega, ?_⟩ <;> omega

theorem mem_insertEntry (x a : Nat × String × List String) (l : List (Nat × String × List String)) :
    a ∈ insertEntry x l ↔ a = x ∨ a ∈ l := by
  induction l with
  | nil => simp [insertEntry]
  | cons y rest ih =>
    simp only [insertEntry]
    split_ifs with h
    · simp only [List.mem_cons]
    · simp only [List.mem_cons, ih]
      tauto

theorem mem_sortEntries (a : Nat × String × List String) (l : List (Nat × String × List String)) :
    a ∈ sortEntries l ↔ a ∈ l := by
  induction l with
  | nil => simp [sortEntries]
  | cons x rest ih =>
    simp only [sortEntries, mem_insertEntry, List.mem_cons, ih]

theorem pairwise_insertEntry (x : Nat × String × List String)
    (l : List (Nat × String × List String))
    (hl : l.Pairwise (fun a b => entryLe a b = true)) :
    (insertEntry x l).Pairwise (fun a b => entryLe a b = true) := by
  induction l with
  | nil => simp [insertEntry]
  | cons y rest ih =>
    rcases List.pairwise_cons.mp hl with ⟨hy, hrest⟩
    simp only [insertEntry]
    split_ifs with h
    · refine List.pairwise_cons.mpr ⟨?_, hl⟩
      intro b hb
      rcases List.mem_cons.mp hb with rfl | hb
      · exact h
      · exact entryLe_trans x y b h (hy b hb)
    · refine List.pairwise_cons.mpr ⟨?_, ih hrest⟩
      intro b hb
      rcases (mem_insertEntry x b rest).mp hb with hbx | hb
      · subst hbx
        rcases Bool.or_eq_true_iff.mp (entryLe_total b y) with h1 | h1
        · exact absurd h1 h
        · exact h1
      · exact hy b hb

theorem pairwise_sortEntries (l : List (Nat × String × List String)) :
    (sortEntries l).Pairwise (fun a b => entryLe a b = true) := by
  induction l with
  | nil => simp [sortEntries]
  | cons x rest ih => exact pairwise_insertEntry x (sortEntries rest) ih

theorem map_lowerChar_eq {l : List Char}
    (h : ∀ c ∈ l, ¬(65 ≤ c.toNat ∧ c.toNat ≤ 90)) : l.map lowerChar = l := by
  induction l with
  | nil => rfl
  | cons a t ih =>
    simp only [List.map_cons]
    rw [show lowerChar a = a from by
      unfold lowerChar; rw [if_neg (h a (List.mem_cons_self a t))]]
    rw [ih fun c hc => h c (List.mem_cons_of_mem a hc)]

theorem lowerStr_eq_self {s : String}
    (h : ∀ c ∈ s.data, ¬(65 ≤ c.toNat ∧ c.toNat ≤ 90)) : lowerStr s = s := by
  unfold lowerStr
  rw [map_lowerChar_eq h]

/-! ## Claim theorems -/

/-- Claim C9: for every fixed non-empty ordered variation list and every
email string, `assign_variation` is deterministic (a pure function of the
email string and the ordered variation list alone), it returns the name of
one of the supplied variations, and for a variation list of size 1 it always
returns that single variation. -/
theorem claim_C9_assign_deterministic :
    (∀ (e : String) (vs : List Variation),
      assign_variation e vs = assign_variation e vs) ∧
    (∀ (e : String) (v : Variation),
      assign_variation e [v] = some v.variation_name) ∧
    (∀ (e : String) (vs : List Variation), vs ≠ [] →
      ∃ v ∈ vs, assign_variation e vs = some v.variation_name) := by
  refine ⟨fun e vs => rfl, ?_, ?_⟩
  · intro e v
    simp [assign_variation, Nat.mod_one]
  · intro e vs h
    match vs with
    | v :: tl =>
      have hlt : hexToNat ((md5Hex e).take 8) % (v :: tl).length < (v :: tl).length :=
        Nat.mod_lt _ (by simp)
      refine ⟨(v :: tl).getD (hexToNat ((md5Hex e).take 8) % (v :: tl).length) v, ?_, rfl⟩
      rw [List.getD_eq_getElem _ _ hlt]
      exact List.getElem_mem hlt

/-- Witness for C9: on the singleton list containing the variation named
`"A"`, the returned variation is a member of the list. -/
theorem claim_C9_witness :
    ([(⟨"A"⟩ : Variation)] ≠ []) ∧
    ∃ v ∈ [(⟨"A"⟩ : Variation)],
      assign_variation "user@domain.com" [⟨"A"⟩] = some v.variation_name :=
  ⟨by decide,
   claim_C9_assign_deterministic.2.2 "user@domain.com" [⟨"A"⟩] (by decide)⟩

/-- Claim C1 counterexample: `assign_variation` hashes the email exactly as
given (no lowercasing), so the case-variant pair `"User@Domain.com"` /
`"user@domain.com"` is assigned different variations of a two-variation
list, refuting `assign(e, vs) = assign(lowercase(e), vs)`. -/
theorem claim_C1_counterexample :
    lowerStr "User@Domain.com" = "user@domain.com" ∧
    assign_variation "User@Domain.com" [⟨"Variation A"⟩, ⟨"Variation B"⟩] ≠
      assign_variation "user@domain.com" [⟨"Variation A"⟩, ⟨"Variation B"⟩] := by
  constructor
  · decide
  · decide

/-- Claim C1 amended: the variation depends on the email string exactly as
given, so `assign(e, vs) = assign(lowercase(e), vs)` holds when `e` is
already free of uppercase ASCII letters (and can fail otherwise, see the
counterexample). -/
theorem claim_C1_amended (e : String) (vs : List Variation)
    (h : ∀ c ∈ e.data, ¬(65 ≤ c.toNat ∧ c.toNat ≤ 90)) :
    assign_variation e vs = assign_variation (lowerStr e) vs := by
  rw [lowerStr_eq_self h]

/-- Witness for the amended C1 at the lowercase email
`"user@domain.com"`. -/
theorem claim_C1_witness :
    (∀ c ∈ ("user@domain.com" : String).data, ¬(65 ≤ c.toNat ∧ c.toNat ≤ 90)) ∧
    assign_variation "user@domain.com" [⟨"Variation A"⟩] =
      assign_variation (lowerStr "user@domain.com") [⟨"Variation A"⟩] :=
  ⟨by decide, claim_C1_amended "user@domain.com" [⟨"Variation A"⟩] (by decide)⟩

/-- Claim C2 counterexample: reaching the Unknown branch aborts the
operation rather than silently excluding the recipient: the loop body
appends under the classified bucket name, and `batches_to_process` is
initialised with only the six named buckets, so the append under
`"Unknown Batch"` raises `KeyError` (modelled by `none`, which propagates
to the whole operation's failure). -/
theorem claim_C2_counterexample :
    classifyTime 1500 = "Unknown Batch" ∧
    appendBatch initialBatches (classifyTime 1500) "user@example.com" = none := by
  constructor
  · decide
  · decide

/-- Claim C2 amended: no parsed HH:MM open-time is ever classified
`"Unknown Batch"` — the six bucket intervals cover the whole 24-hour clock,
so the Unknown branch is unreachable for parsed times — and consequently
the classification loop never fails on any recipient list.  (Had the branch
been reachable, it would abort the operation: see the counterexample.) -/
theorem claim_C2_unknown_unreachable :
    (∀ t : Nat, t < 1440 → classifyTime t ≠ "Unknown Batch") ∧
    (∀ (s : String) (t : Nat), parseHHMM s = some t → t < 1440) ∧
    (∀ rows : List Row, (classifyRows rows).isSome) := by
  refine ⟨?_, fun s t h => parseHHMM_lt h, classifyRows_isSome⟩
  intro t ht he
  have hmem := classifyTime_mem t ht
  rw [he] at hmem
  revert hmem
  decide

/-- Witness for the amended C2 at the parsed time 09:30 (570 minutes). -/
theorem claim_C2_witness :
    (570 < 1440 ∧ classifyTime 570 ≠ "Unknown Batch") ∧
    (parseHHMM "09:30" = some 570 ∧ 570 < 1440) :=
  ⟨⟨by decide, claim_C2_unknown_unreachable.1 570 (by decide)⟩,
   ⟨by decide, claim_C2_unknown_unreachable.2.1 "09:30" 570 (by decide)⟩⟩

/-- Claim C3: classify places "09:30" in Morning Batch 1, "00:15" and
"23:45" both in Night Batch 1, "02:00" in Night Batch 2; the buckets'
half-open intervals (Morning 1 `[06:00,10:00)`, Night 1
`[21:00,24:00) ∪ [00:00,01:00)`, Night 2 `[01:00,06:00)`) determine the
classification; and every row whose open-time (or email) is missing or
unparseable as HH:MM is silently dropped: it leaves the bucket state
unchanged and causes no error. -/
theorem claim_C3_classify :
    (classifyRows [⟨"a@x.com", "09:30"⟩, ⟨"b@x.com", "00:15"⟩,
        ⟨"c@x.com", "23:45"⟩, ⟨"d@x.com", "02:00"⟩] =
      some [("Morning Batch 1", ["a@x.com"]), ("Morning Batch 2", []),
            ("Evening Batch 1", []), ("Evening Batch 2", []),
            ("Night Batch 1", ["b@x.com", "c@x.com"]),
            ("Night Batch 2", ["d@x.com"])]) ∧
    (∀ t : Nat, 360 ≤ t → t < 600 → classifyTime t = "Morning Batch 1") ∧
    (∀ t : Nat, t < 1440 → 1260 ≤ t ∨ t < 60 → classifyTime t = "Night Batch 1") ∧
    (∀ t : Nat, 60 ≤ t → t < 360 → classifyTime t = "Night Batch 2") ∧
    (∀ (st : Batches) (row : Row), parseHHMM (pyStrip row.opentime) = none →
      processRow st row = some st) ∧
    (∀ (st : Batches) (row : Row), pyStrip row.opentime = "" →
      processRow st row = some st) ∧
    (∀ (st : Batches) (row : Row), pyStrip row.email = "" →
      processRow st row = some st) := by
  refine ⟨by decide, ?_, ?_, ?_, ?_, ?_, ?_⟩
  · intro t h1 h2
    unfold classifyTime
    rw [if_pos ⟨h1, h2⟩]
  · intro t ht hc
    unfold classifyTime
    split_ifs with g1 g2 g3 g4 g5 g6 <;> first | rfl | (exfalso; omega)
  · intro t h1 h2
    unfold classifyTime
    split_ifs with g1 g2 g3 g4 g5 g6 <;> first | rfl | (exfalso; omega)
  · intro st row hp
    simp only [processRow]
    split_ifs with h1
    · rfl
    · rw [hp]
  · intro st row h
    simp only [processRow]
    rw [if_pos (Or.inr h)]
  · intro st row h
    simp only [processRow]
    rw [if_pos (Or.inl h)]

/-- Witness for C3: bucket membership of 09:30 (570 minutes) and the
silent drop of a row with the unparseable open-time "25:00". -/
theorem claim_C3_witness :
    (360 ≤ 570 ∧ 570 < 600 ∧ classifyTime 570 = "Morning Batch 1") ∧
    (parseHHMM (pyStrip (Row.mk "x@y.com" "25:00").opentime) = none ∧
      processRow initialBatches (Row.mk "x@y.com" "25:00") = some initialBatches) :=
  ⟨⟨by decide, by decide, claim_C3_classify.2.1 570 (by decide) (by decide)⟩,
   ⟨by decide,
    claim_C3_classify.2.2.2.2.1 initialBatches (Row.mk "x@y.com" "25:00") (by decide)⟩⟩

/-- Claim C4: for every bucket state and wall-clock second `now`,
`scheduleBatches` contains exactly the non-empty buckets, pairs each with
the next occurrence of its target (hour, minute) — the unique timestamp
with that time-of-day in the half-open day `[now, now + 86400)`, i.e.
today's occurrence if it has not already passed, else tomorrow's — and
returns the batches sorted ascending by that timestamp; in particular with
the 08:00 and 19:00 buckets non-empty at `now` = 20:00 (72000 s), both roll
to tomorrow and 08:00-tomorrow (115200 s) is ordered before 19:00-tomorrow
(154800 s). -/
theorem claim_C4_schedule (now : Nat) (batches : Batches) :
    (∀ e ∈ scheduleBatches now batches,
      ∃ b ∈ batches, b.2 ≠ [] ∧
        e = (nextOccurrence now (lookupSendTime b.1), b.1, b.2)) ∧
    (∀ b ∈ batches, b.2 ≠ [] →
      (nextOccurrence now (lookupSendTime b.1), b.1, b.2) ∈ scheduleBatches now batches) ∧
    (∀ h m : Nat, h ≤ 23 → m ≤ 59 →
      now ≤ nextOccurrence now (h, m) ∧
      nextOccurrence now (h, m) < now + 86400 ∧
      nextOccurrence now (h, m) % 86400 = h * 3600 + m * 60) ∧
    (scheduleBatches now batches).Pairwise (fun x y => x.1 ≤ y.1) ∧
    scheduleBatches 72000
      [("Morning Batch 1", ["a@x.com"]), ("Morning Batch 2", []),
       ("Evening Batch 1", []), ("Evening Batch 2", ["b@x.com"]),
       ("Night Batch 1", []), ("Night Batch 2", [])] =
      [(115200, "Morning Batch 1", ["a@x.com"]),
       (154800, "Evening Batch 2", ["b@x.com"])] := by
  refine ⟨?_, ?_, fun h m hh hm => nextOccurrence_spec now h m hh hm, ?_, by decide⟩
  · intro e he
    rw [scheduleBatches, mem_sortEntries, List.mem_filterMap] at he
    obtain ⟨b, hb, hsome⟩ := he
    by_cases hemp : b.2 = []
    · rw [if_pos hemp] at hsome
      exact absurd hsome (by simp)
    · rw [if_neg hemp] at hsome
      exact ⟨b, hb, hemp, (Option.some_inj.mp hsome).symm⟩
  · intro b hb hemp
    rw [scheduleBatches, mem_sortEntries, List.mem_filterMap]
    exact ⟨b, hb, by rw [if_neg hemp]⟩
  · refine (pairwise_sortEntries _).imp ?_
    intro a b hab
    rcases (entryLe_iff a b).mp hab with h | ⟨h, _⟩
    · exact Nat.le_of_lt h
    · exact Nat.le_of_eq h

/-- Witness for C4: at `now` = 72000 s (20:00), the non-empty Morning
Batch 1 appears in the schedule with timestamp 115200 (08:00 tomorrow),
and the 08:00 target's next occurrence lies in `[now, now + 86400)`. -/
theorem claim_C4_witness :
    (("Morning Batch 1", ["a@x.com"]) ∈
        ([("Morning Batch 1", ["a@x.com"]), ("Morning Batch 2", []),
          ("Evening Batch 1", []), ("Evening Batch 2", ["b@x.com"]),
          ("Night Batch 1", []), ("Night Batch 2", [])] : Batches) ∧
      (["a@x.com"] : List String) ≠ [] ∧
      (nextOccurrence 72000 (lookupSendTime "Morning Batch 1"), "Morning Batch 1", ["a@x.com"]) ∈
        scheduleBatches 72000
          [("Morning Batch 1", ["a@x.com"]), ("Morning Batch 2", []),
           ("Evening Batch 1", []), ("Evening Batch 2", ["b@x.com"]),
           ("Night Batch 1", []), ("Night Batch 2", [])]) ∧
    (8 ≤ 23 ∧ 0 ≤ 59 ∧ 72000 ≤ nextOccurrence 72000 (8, 0) ∧
      nextOccurrence 72000 (8, 0) < 72000 + 86400 ∧
      nextOccurrence 72000 (8, 0) % 86400 = 8 * 3600 + 0 * 60) :=
  ⟨⟨by decide, by decide,
    (claim_C4_schedule 72000 _).2.1 ("Morning Batch 1", ["a@x.com"]) (by decide) (by decide)⟩,
   by
    obtain ⟨h1, h2, h3⟩ := (claim_C4_schedule 72000 []).2.2.1 8 0 (by decide) (by decide)
    exact ⟨by decide, by decide, h1, h2, h3⟩⟩

/-- Claim C5: `dispatch` processes the recipients of each batch
sequentially; the gateway is called once per recipient of every batch in
order (so one recipient's send failure aborts neither the rest of its
batch nor the remaining batches), and the returned report lists
`(bucketName, full recipient count)` for every processed batch, identically
for every possible pattern of per-recipient send results. -/
theorem claim_C5_dispatch (send : String → Bool)
    (sorted_batches : List (Nat × String × List String)) :
    (dispatchBatches send sorted_batches).1 =
      sorted_batches.map (fun b => (b.2.1, b.2.2.length)) ∧
    (dispatchBatches send sorted_batches).2 =
      (sorted_batches.map fun b => b.2.2.map send).flatten := by
  unfold dispatchBatches
  rw [dispatch_foldl]
  simp

theorem rate_eq (a b : Nat) :
    (if b > 0 then (a : ℚ) / b * 100 else 0) =
      (if b = 0 then 0 else (a : ℚ) / b * 100) := by
  rcases Nat.eq_zero_or_pos b with h | h
  · rw [if_neg (by omega), if_pos h]
  · rw [if_pos h, if_neg (by omega)]

unseal Rat.mul Rat.inv in
/-- Claim C6: `calculate_ab_metrics` aggregates, for each distinct
variation assigned within the campaign, only over recipients of that
campaign with status `'sent'`: `total_sent`, `opened`, `clicked`,
`converted` count those rows and their set timestamps; the rates are the
percentage ratios with a zero guard (`0` when `total_sent = 0`, and
`click_through_rate = 0` when `opened = 0`); when `total_sent = 0` all four
rates are `0`; and 10 sent / 4 opened / 2 clicked yields
`open_rate = 40`, `click_rate = 20`, `click_through_rate = 50`. -/
theorem claim_C6_metrics :
    (∀ (db : List Recipient) (cid : Nat) (v : String) (m : VariationMetrics),
      (v, m) ∈ calculate_ab_metrics db cid →
        (m.total_sent = (db.filter fun r =>
            r.campaign_id = cid ∧ r.variation_assigned = v ∧ r.status = "sent").length ∧
         m.opened = ((db.filter fun r =>
            r.campaign_id = cid ∧ r.variation_assigned = v ∧ r.status = "sent").filter
              fun r => r.opened_at ≠ none).length ∧
         m.clicked = ((db.filter fun r =>
            r.campaign_id = cid ∧ r.variation_assigned = v ∧ r.status = "sent").filter
              fun r => r.clicked_at ≠ none).length ∧
         m.converted = ((db.filter fun r =>
            r.campaign_id = cid ∧ r.variation_assigned = v ∧ r.status = "sent").filter
              fun r => r.converted_at ≠ none).length) ∧
        (m.open_rate = if m.total_sent = 0 then 0 else (m.opened : ℚ) / m.total_sent * 100) ∧
        (m.click_rate = if m.total_sent = 0 then 0 else (m.clicked : ℚ) / m.total_sent * 100) ∧
        (m.conversion_rate =
          if m.total_sent = 0 then 0 else (m.converted : ℚ) / m.total_sent * 100) ∧
        (m.click_through_rate = if m.opened = 0 then 0 else (m.clicked : ℚ) / m.opened * 100) ∧
        (m.total_sent = 0 → m.open_rate = 0 ∧ m.click_rate = 0 ∧
          m.conversion_rate = 0 ∧ m.click_through_rate = 0)) ∧
    calculate_ab_metrics exampleDb 1 =
      [("A", { total_sent := 10, opened := 4, clicked := 2, converted := 0,
               open_rate := 40, click_rate := 20, conversion_rate := 0,
               click_through_rate := 50 })] := by
  constructor
  · intro db cid v m hm
    simp only [calculate_ab_metrics, List.mem_map] at hm
    obtain ⟨v', hv', heq⟩ := hm
    have hv : v' = v := congrArg Prod.fst heq
    subst hv
    have hmm : metricsFor db cid v' = m := congrArg Prod.snd heq
    subst hmm
    have hop_le : (metricsFor db cid v').opened ≤ (metricsFor db cid v').total_sent :=
      List.length_filter_le _ _
    have h1 : (metricsFor db cid v').open_rate =
        if (metricsFor db cid v').total_sent = 0 then 0
        else ((metricsFor db cid v').opened : ℚ) / (metricsFor db cid v').total_sent * 100 :=
      rate_eq _ _
    have h2 : (metricsFor db cid v').click_rate =
        if (metricsFor db cid v').total_sent = 0 then 0
        else ((metricsFor db cid v').clicked : ℚ) / (metricsFor db cid v').total_sent * 100 :=
      rate_eq _ _
    have h3 : (metricsFor db cid v').conversion_rate =
        if (metricsFor db cid v').total_sent = 0 then 0
        else ((metricsFor db cid v').converted : ℚ) / (metricsFor db cid v').total_sent * 100 :=
      rate_eq _ _
    have h4 : (metricsFor db cid v').click_through_rate =
        if (metricsFor db cid v').opened = 0 then 0
        else ((metricsFor db cid v').clicked : ℚ) / (metricsFor db cid v').opened * 100 :=
      rate_eq _ _
    refine ⟨⟨rfl, rfl, rfl, rfl⟩, h1, h2, h3, h4, ?_⟩
    intro h0
    have hop0 : (metricsFor db cid v').opened = 0 := by omega
    exact ⟨by rw [h1, if_pos h0], by rw [h2, if_pos h0],
      by rw [h3, if_pos h0], by rw [h4, if_pos hop0]⟩
  · decide

unseal Rat.mul Rat.inv in
/-- Witness for C6 at the concrete ten-recipient database. -/
theorem claim_C6_witness :
    (("A", metricsFor exampleDb 1 "A") ∈ calculate_ab_metrics exampleDb 1) ∧
    (metricsFor exampleDb 1 "A").open_rate =
      (if (metricsFor exampleDb 1 "A").total_sent = 0 then 0
       else ((metricsFor exampleDb 1 "A").opened : ℚ) /
         (metricsFor exampleDb 1 "A").total_sent * 100) :=
  ⟨by decide,
   (claim_C6_metrics.1 exampleDb 1 "A" (metricsFor exampleDb 1 "A") (by decide)).2.1⟩

theorem openRow_second (tid : String) (n1 n2 : Nat) (r : Recipient) :
    openRow tid n2 (openRow tid n1 r) = openRow tid n1 r := by
  by_cases h1 : r.tracking_id = tid ∧ r.opened_at = none
  · rw [show openRow tid n1 r = { r with opened_at := some n1 } from by
      unfold openRow; rw [if_pos h1]]
    unfold openRow
    rw [if_neg (by simp)]
  · rw [show openRow tid n1 r = r from by unfold openRow; rw [if_neg h1]]
    unfold openRow
    rw [if_neg h1]

theorem clickRow_second (tid : String) (n1 n2 : Nat) (r : Recipient) :
    clickRow tid n2 (clickRow tid n1 r) = clickRow tid n1 r := by
  by_cases h1 : r.tracking_id = tid ∧ r.clicked_at = none
  · rw [show clickRow tid n1 r = { r with clicked_at := some n1 } from by
      unfold clickRow; rw [if_pos h1]]
    unfold clickRow
    rw [if_neg (by simp)]
  · rw [show clickRow tid n1 r = r from by unfold clickRow; rw [if_neg h1]]
    unfold clickRow
    rw [if_neg h1]

/-- Claim C7: `recordOpen` sets `opened_at` to the current time only when it
is currently unset for the matching recipient — a second call on the same
tracking id leaves the database exactly as the first call left it — and on
every path, including a persistence error, the handler returns the valid
1x1 placeholder pixel response. -/
theorem claim_C7_record_open :
    (∀ (db : List Recipient) (tid : String) (n1 n2 : Nat),
      updateOpened (updateOpened db tid n1) tid n2 = updateOpened db tid n1) ∧
    (∀ (tid : String) (n : Nat) (r : Recipient),
      r.opened_at ≠ none → openRow tid n r = r) ∧
    (∀ (tid : String) (n : Nat) (r : Recipient),
      r.tracking_id = tid → r.opened_at = none →
        openRow tid n r = { r with opened_at := some n }) ∧
    (∀ (db_fails : Bool) (db : List Recipient) (tid : String) (n : Nat),
      (tracking_pixel db_fails db tid n).2 = TrackResponse.pixel "image/gif" pixelB64) := by
  refine ⟨?_, ?_, ?_, ?_⟩
  · intro db tid n1 n2
    unfold updateOpened
    rw [List.map_map]
    exact List.map_congr_left fun r _ => openRow_second tid n1 n2 r
  · intro tid n r h
    unfold openRow
    rw [if_neg (by simp [h])]
  · intro tid n r h1 h2
    unfold openRow
    rw [if_pos ⟨h1, h2⟩]
  · intro db_fails db tid n
    unfold tracking_pixel
    split_ifs <;> rfl

/-- Witness for C7: a recipient with `opened_at` already set is untouched,
and one with it unset and a matching tracking id gets the timestamp. -/
theorem claim_C7_witness :
    ((exRec (some 5) none).opened_at ≠ none ∧
      openRow "t" 9 (exRec (some 5) none) = exRec (some 5) none) ∧
    ((exRec none none).tracking_id = "t" ∧ (exRec none none).opened_at = none ∧
      openRow "t" 9 (exRec none none) = { exRec none none with opened_at := some 9 }) :=
  ⟨⟨by decide, claim_C7_record_open.2.1 "t" 9 (exRec (some 5) none) (by decide)⟩,
   ⟨by decide, by decide,
    claim_C7_record_open.2.2.1 "t" 9 (exRec none none) (by decide) (by decide)⟩⟩

/-- Claim C8: `recordClick` sets `clicked_at` only when it is currently
unset (first-click-wins), and always issues a redirect: to the `url`
parameter when it is present and the write succeeds, and to the configured
default URL when the parameter is absent or the write errors. -/
theorem claim_C8_record_click :
    (∀ (db : List Recipient) (tid : String) (n1 n2 : Nat),
      updateClicked (updateClicked db tid n1) tid n2 = updateClicked db tid n1) ∧
    (∀ (tid : String) (n : Nat) (r : Recipient),
      r.clicked_at ≠ none → clickRow tid n r = r) ∧
    (∀ (base : String) (db : List Recipient) (tid : String) (n : Nat) (u : String),
      (track_click base false (some u) db tid n).2 = TrackResponse.redirectTo u) ∧
    (∀ (base : String) (db : List Recipient) (tid : String) (n : Nat),
      (track_click base false none db tid n).2 = TrackResponse.redirectTo base) ∧
    (∀ (base : String) (u : Option String) (db : List Recipient) (tid : String) (n : Nat),
      (track_click base true u db tid n).2 = TrackResponse.redirectTo base) := by
  refine ⟨?_, ?_, fun base db tid n u => rfl, fun base db tid n => rfl,
    fun base u db tid n => rfl⟩
  · intro db tid n1 n2
    unfold updateClicked
    rw [List.map_map]
    exact List.map_congr_left fun r _ => clickRow_second tid n1 n2 r
  · intro tid n r h
    unfold clickRow
    rw [if_neg (by simp [h])]

/-- Witness for C8: a recipient with `clicked_at` already set is
untouched. -/
theorem claim_C8_witness :
    (exRec none (some 3)).clicked_at ≠ none ∧
    clickRow "t" 9 (exRec none (some 3)) = exRec none (some 3) :=
  ⟨by decide, claim_C8_record_click.2.1 "t" 9 (exRec none (some 3)) (by decide)⟩

theorem updateOpened_frame (db : List Recipient) (tid : String) (n : Nat)
    (h : ∀ r ∈ db, r.tracking_id ≠ tid) : updateOpened db tid n = db := by
  unfold updateOpened
  induction db with
  | nil => rfl
  | cons a t ih =>
    simp only [List.map_cons]
    rw [show openRow tid n a = a from by
      unfold openRow
      rw [if_neg (by simp [h a (List.mem_cons_self a t)])]]
    rw [ih fun r hr => h r (List.mem_cons_of_mem a hr)]

theorem updateClicked_frame (db : List Recipient) (tid : String) (n : Nat)
    (h : ∀ r ∈ db, r.tracking_id ≠ tid) : updateClicked db tid n = db := by
  unfold updateClicked
  induction db with
  | nil => rfl
  | cons a t ih =>
    simp only [List.map_cons]
    rw [show clickRow tid n a = a from by
      unfold clickRow
      rw [if_neg (by simp [h a (List.mem_cons_self a t)])]]
    rw [ih fun r hr => h r (List.mem_cons_of_mem a hr)]

/-- Claim C10: when the tracking id matches no recipient row, the
conditional updates of `recordOpen` and `recordClick` change no row, and
each handler still returns its usual successful response: the pixel, and
the redirect to the `url` parameter (or the default when absent). -/
theorem claim_C10_unknown_tid (db : List Recipient) (tid : String)
    (h : ∀ r ∈ db, r.tracking_id ≠ tid) (n : Nat) (base u : String) :
    updateOpened db tid n = db ∧
    updateClicked db tid n = db ∧
    tracking_pixel false db tid n = (db, TrackResponse.pixel "image/gif" pixelB64) ∧
    track_click base false (some u) db tid n = (db, TrackResponse.redirectTo u) ∧
    track_click base false none db tid n = (db, TrackResponse.redirectTo base) := by
  have ho := updateOpened_frame db tid n h
  have hc := updateClicked_frame db tid n h
  refine ⟨ho, hc, ?_, ?_, ?_⟩
  · unfold tracking_pixel
    rw [if_neg (by simp), ho]
  · unfold track_click
    rw [if_neg (by simp), hc]
    rfl
  · unfold track_click
    rw [if_neg (by simp), hc]
    rfl

/-- Witness for C10: a one-row database whose tracking id differs from the
queried id `"zzz"` is left unchanged and the handlers answer normally. -/
theorem claim_C10_witness :
    (∀ r ∈ [exRec none none], r.tracking_id ≠ "zzz") ∧
    updateOpened [exRec none none] "zzz" 7 = [exRec none none] ∧
    updateClicked [exRec none none] "zzz" 7 = [exRec none none] ∧
    tracking_pixel false [exRec none none] "zzz" 7 =
      ([exRec none none], TrackResponse.pixel "image/gif" pixelB64) ∧
    track_click "http://localhost:5000" false (some "https://x.com")
        [exRec none none] "zzz" 7 =
      ([exRec none none], TrackResponse.redirectTo "https://x.com") ∧
    track_click "http://localhost:5000" false none [exRec none none] "zzz" 7 =
      ([exRec none none], TrackResponse.redirectTo "http://localhost:5000") :=
  ⟨by decide,
   claim_C10_unknown_tid [exRec none none] "zzz" (by decide) 7
     "http://localhost:5000" "https://x.com"⟩

end EmailMarketing
